import Mathlib

/-!
# Verification of the bittensor tensor codec and the opentensor Config module

The tensor module (`cast_dtype`, `cast_shape`, `Tensor`, the serialize /
deserialize codec and `TensorFactory`) is not present among the sources; only
its pytest suite is.  Those components are therefore modelled from the
specification (spec.md §3, §4.1–§4.5, §7) and every definition below that
embeds them carries a doc comment saying so.  `Config` is embedded directly
from `src/opentensor/config.py`.

Numeric element values are modelled as integers (`Int`); the transport-safe
reversible buffer encoding, which the spec leaves open ("a reversible
byte-to-text or byte-to-byte encoding"), is modelled by a concrete reversible
text encoding over the alphabet `+ - 1 ;`.
-/

/-- Modelled from the spec (§7): the error taxonomy of the casting,
construction and codec operations.  Failures are surfaced synchronously to the
caller, modelled by `Except Err`. -/
inductive Err where
  | invalidDType
  | invalidShape
  | typeMismatch
  | shapeMismatch
  | decodeFailure
  deriving DecidableEq, Repr

/-- Modelled from the spec (§3 DType): the enumerated element kinds of the
registry — floating-point widths 16/32/64, signed integers 8/16/32/64,
unsigned 8-bit, boolean, complex 32/64/128 — i.e. the native dtype objects
(`torch.float32`, ...). -/
inductive TorchDtype where
  | float16 | float32 | float64
  | uint8 | int8 | int16 | int32 | int64
  | bool
  | complex32 | complex64 | complex128
  deriving DecidableEq, Repr

/-- The bare canonical name of each element kind. -/
def TorchDtype.bareName : TorchDtype → String
  | .float16 => "float16"
  | .float32 => "float32"
  | .float64 => "float64"
  | .uint8 => "uint8"
  | .int8 => "int8"
  | .int16 => "int16"
  | .int32 => "int32"
  | .int64 => "int64"
  | .bool => "bool"
  | .complex32 => "complex32"
  | .complex64 => "complex64"
  | .complex128 => "complex128"

/-- Modelled from the spec (§4.1): the registry table mapping each native
dtype object to its canonical namespace-qualified string. -/
def TORCH_DTYPES : TorchDtype → String
  | .float16 => "torch.float16"
  | .float32 => "torch.float32"
  | .float64 => "torch.float64"
  | .uint8 => "torch.uint8"
  | .int8 => "torch.int8"
  | .int16 => "torch.int16"
  | .int32 => "torch.int32"
  | .int64 => "torch.int64"
  | .bool => "torch.bool"
  | .complex32 => "torch.complex32"
  | .complex64 => "torch.complex64"
  | .complex128 => "torch.complex128"

/-- The bare spellings recognized by the registry. -/
def dtypeBareNames : List String :=
  ["float16", "float32", "float64", "uint8", "int8", "int16", "int32",
   "int64", "bool", "complex32", "complex64", "complex128"]

/-- Modelled from the spec (§4.1, §6): a dtype string is recognized when it is
a bare canonical name or a namespace-qualified name; both forms are valid
independently. -/
def recognizedDtype (s : String) : Bool :=
  dtypeBareNames.contains s
    || (dtypeBareNames.map (fun b => "torch." ++ b)).contains s

/-- The kinds of value a caller can hand to `cast_dtype`: absence, a string,
a native dtype object, or any other kind of value (an integer, an empty
collection, ...), the latter modelled by a description tag. -/
inductive DTypeInput where
  | absent
  | str (s : String)
  | obj (d : TorchDtype)
  | other (desc : String)

/-- Modelled from the spec (§4.1): `cast_dtype`.  Absent input passes through;
a recognized string is returned unchanged; an unrecognized string fails with
`InvalidDType`; a native dtype object maps to its canonical qualified string;
any other kind of value fails with `TypeMismatch`. -/
def cast_dtype : DTypeInput → Except Err (Option String)
  | .absent => .ok none
  | .str s => if recognizedDtype s then .ok (some s) else .error .invalidDType
  | .obj d => .ok (some (TORCH_DTYPES d))
  | .other _ => .error .typeMismatch

/-- C2: for every native dtype object recognized by the registry, `cast_dtype`
returns that dtype's canonical namespace-qualified string — the `"torch."`
prefixed form, which is never the bare form. -/
theorem cast_dtype_obj_qualified (d : TorchDtype) :
    cast_dtype (.obj d) = .ok (some (TORCH_DTYPES d))
      ∧ TORCH_DTYPES d = "torch." ++ d.bareName
      ∧ TORCH_DTYPES d ≠ d.bareName := by
  refine ⟨rfl, ?_, ?_⟩
  · cases d <;> rfl
  · intro h
    have hlen : (TORCH_DTYPES d).length = d.bareName.length := by rw [h]
    have hq : TORCH_DTYPES d = "torch." ++ d.bareName := by cases d <;> rfl
    rw [hq, String.length_append] at hlen
    have h6 : ("torch." : String).length = 6 := rfl
    omega

/-- C4: every recognized dtype string, bare or namespace-qualified, passes
through `cast_dtype` unchanged. -/
theorem cast_dtype_str_id (s : String) (h : recognizedDtype s = true) :
    cast_dtype (.str s) = .ok (some s) := by
  simp [cast_dtype, h]

/-- Witness for C4 at a qualified and at a bare spelling. -/
theorem cast_dtype_str_id_witness :
    cast_dtype (.str "torch.float32") = .ok (some "torch.float32")
      ∧ cast_dtype (.str "float32") = .ok (some "float32") :=
  ⟨cast_dtype_str_id "torch.float32" (by decide),
   cast_dtype_str_id "float32" (by decide)⟩

/-- C7: `cast_dtype` on absent input returns absent without error; on every
unrecognized string it fails with `InvalidDType`; and on every non-string,
non-dtype value it fails with `TypeMismatch`. -/
theorem cast_dtype_error_contract :
    cast_dtype .absent = .ok none
      ∧ (∀ s, recognizedDtype s = false →
          cast_dtype (.str s) = .error .invalidDType)
      ∧ (∀ desc, cast_dtype (.other desc) = .error .typeMismatch) := by
  refine ⟨rfl, ?_, fun _ => rfl⟩
  intro s hs
  simp [cast_dtype, hs]

/-- Witness for C7: the unrecognized string of the test suite, and the
non-string non-dtype inputs `123` and `[]`. -/
theorem cast_dtype_error_contract_witness :
    cast_dtype (.str "invalid_dtype") = .error .invalidDType
      ∧ cast_dtype (.other "123") = .error .typeMismatch
      ∧ cast_dtype (.other "empty list") = .error .typeMismatch :=
  ⟨cast_dtype_error_contract.2.1 "invalid_dtype" (by decide),
   cast_dtype_error_contract.2.2 "123",
   cast_dtype_error_contract.2.2 "empty list"⟩

/-! ## Decimal text for shapes

The canonical wire form of a shape (spec §3, §6) is its literal bracketed
comma-space decimal representation, e.g. `[1, 2, 3]` ↦ `"[1, 2, 3]"` and the
empty shape ↦ `"[]"`.  We build the decimal printer and, for the codec, the
inverse parser. -/

/-- The decimal digit character for `m` (`0 ↦ '0'`, ..., `9 ↦ '9'`). -/
def digitCh (m : Nat) : Char := Char.ofNat (48 + m)

/-- The numeric value of a digit character. -/
def charVal (c : Char) : Nat := c.toNat - 48

/-- Little-endian digit characters of `n`, driven by fuel. -/
def natDigitsAux : Nat → Nat → List Char
  | 0, _ => []
  | _ + 1, 0 => []
  | fuel + 1, n => digitCh (n % 10) :: natDigitsAux fuel (n / 10)

/-- The decimal character string of a natural number. -/
def natChars (n : Nat) : List Char :=
  if n = 0 then ['0'] else (natDigitsAux n n).reverse

/-- The decimal character string of an integer (minus sign for negatives),
matching the textual form of integers inside a bracketed sequence. -/
def intChars (n : Int) : List Char :=
  if n < 0 then '-' :: natChars n.natAbs else natChars n.natAbs

theorem natDigitsAux_zero_fuel (n : Nat) : natDigitsAux 0 n = [] := rfl

theorem natDigitsAux_zero (f : Nat) : natDigitsAux (f + 1) 0 = [] := rfl

theorem natDigitsAux_succ (f m : Nat) :
    natDigitsAux (f + 1) (m + 1)
      = digitCh ((m + 1) % 10) :: natDigitsAux f ((m + 1) / 10) := rfl

theorem digitCh_toNat {m : Nat} (h : m < 10) : (digitCh m).toNat = 48 + m := by
  unfold digitCh; interval_cases m <;> decide

theorem digitCh_isDigit {m : Nat} (h : m < 10) : (digitCh m).isDigit = true := by
  unfold digitCh; interval_cases m <;> decide

theorem charVal_digitCh {m : Nat} (h : m < 10) : charVal (digitCh m) = m := by
  unfold charVal; rw [digitCh_toNat h]; omega

theorem isDigit_ne_rb {c : Char} (h : c.isDigit = true) : ¬ c = ']' := by
  rintro rfl; exact absurd h (by decide)

theorem isDigit_ne_comma {c : Char} (h : c.isDigit = true) : ¬ c = ',' := by
  rintro rfl; exact absurd h (by decide)

theorem natDigitsAux_digits :
    ∀ fuel n c, c ∈ natDigitsAux fuel n → c.isDigit = true := by
  intro fuel
  induction fuel with
  | zero => intro n c hc; simp [natDigitsAux_zero_fuel] at hc
  | succ f ih =>
    intro n c hc
    match n with
    | 0 => simp [natDigitsAux_zero] at hc
    | m + 1 =>
      rw [natDigitsAux_succ] at hc
      rcases List.mem_cons.mp hc with h | h
      · subst h; exact digitCh_isDigit (Nat.mod_lt _ (by norm_num))
      · exact ih _ c h

theorem natChars_digits {n : Nat} : ∀ c ∈ natChars n, c.isDigit = true := by
  intro c hc
  unfold natChars at hc
  by_cases h : n = 0
  · simp [h] at hc; subst hc; decide
  · rw [if_neg h, List.mem_reverse] at hc
    exact natDigitsAux_digits n n c hc

theorem natChars_ne_nil (n : Nat) : natChars n ≠ [] := by
  unfold natChars
  by_cases h : n = 0
  · simp [h]
  · rw [if_neg h, Ne, List.reverse_eq_nil_iff]
    match n, h with
    | m + 1, _ => rw [natDigitsAux_succ]; simp

theorem natDigitsAux_val :
    ∀ fuel n, n ≤ fuel →
      (natDigitsAux fuel n).foldr (fun c a => 10 * a + charVal c) 0 = n := by
  intro fuel
  induction fuel with
  | zero => intro n hn; interval_cases n; simp [natDigitsAux_zero_fuel]
  | succ f ih =>
    intro n hn
    match n with
    | 0 => simp [natDigitsAux_zero]
    | m + 1 =>
      rw [natDigitsAux_succ, List.foldr_cons]
      have hdiv : (m + 1) / 10 < m + 1 := Nat.div_lt_self (Nat.succ_pos m) (by norm_num)
      rw [ih ((m + 1) / 10) (by omega)]
      rw [charVal_digitCh (Nat.mod_lt _ (by norm_num))]
      omega

theorem natChars_val (n : Nat) :
    (natChars n).foldl (fun a c => 10 * a + charVal c) 0 = n := by
  unfold natChars
  by_cases h : n = 0
  · simp [h, charVal]
  · rw [if_neg h, List.foldl_reverse]
    exact natDigitsAux_val n n le_rfl

/-- Comma-space separated decimal rendering of a list of dimension extents. -/
def natDimsChars : List Nat → List Char
  | [] => []
  | [d] => natChars d
  | d :: rest => natChars d ++ ',' :: ' ' :: natDimsChars rest

/-- Modelled from the spec (§3, §6): the canonical shape wire string
`"[d0, d1, ..., dn]"`. -/
def shapeString (dims : List Nat) : String :=
  ⟨'[' :: (natDimsChars dims ++ [']'])⟩

/-- Comma-space separated decimal rendering of a list of integers. -/
def intDimsChars : List Int → List Char
  | [] => []
  | [n] => intChars n
  | n :: rest => intChars n ++ ',' :: ' ' :: intDimsChars rest

/-- The literal bracketed comma-space decimal text of an integer sequence,
exactly the text form a bracketed list prints as (`[1, 2, 3]` ↦
`"[1, 2, 3]"`, `[]` ↦ `"[]"`). -/
def intListString (l : List Int) : String :=
  ⟨'[' :: (intDimsChars l ++ [']'])⟩

/-- State-machine parser for the dimension list inside a canonical shape
string: `acc` is the value of the digit run being read, `seen` whether the
current run is nonempty, `dims` the extents already read (reversed).  Spaces
are skipped, `','` closes a run, `']'` closes the list and must end the
text. -/
def parseDimsAux : List Char → Nat → Bool → List Nat → Option (List Nat)
  | [], _, _, _ => none
  | c :: rest, acc, seen, dims =>
    if c = ']' then
      if seen && rest.isEmpty then some (acc :: dims).reverse else none
    else if c = ',' then
      if seen then parseDimsAux rest 0 false (acc :: dims) else none
    else if c = ' ' then
      parseDimsAux rest acc seen dims
    else if c.isDigit then
      parseDimsAux rest (10 * acc + charVal c) true dims
    else none

/-- Parse a canonical shape string back into its dimension extents; the
inverse of `shapeString`, used by the codec's deserialize step. -/
def parseShape (s : String) : Option (List Nat) :=
  match s.data with
  | '[' :: rest => if rest = [']'] then some [] else parseDimsAux rest 0 false []
  | _ => none

theorem isDigit_ne_space {c : Char} (h : c.isDigit = true) : ¬ c = ' ' := by
  rintro rfl; exact absurd h (by decide)

theorem parseDimsAux_cons (c : Char) (rest : List Char) (acc : Nat)
    (seen : Bool) (dims : List Nat) :
    parseDimsAux (c :: rest) acc seen dims
      = if c = ']' then
          (if seen && rest.isEmpty then some (acc :: dims).reverse else none)
        else if c = ',' then
          (if seen then parseDimsAux rest 0 false (acc :: dims) else none)
        else if c = ' ' then
          parseDimsAux rest acc seen dims
        else if c.isDigit then
          parseDimsAux rest (10 * acc + charVal c) true dims
        else none := rfl

/-- A run of digit characters is consumed as one decimal number. -/
theorem parseDimsAux_digit_run :
    ∀ (cs : List Char), (∀ c ∈ cs, c.isDigit = true) →
      ∀ rest acc seen dims,
        parseDimsAux (cs ++ rest) acc seen dims
          = parseDimsAux rest (cs.foldl (fun a c => 10 * a + charVal c) acc)
              (seen || !cs.isEmpty) dims := by
  intro cs
  induction cs with
  | nil => intro _ rest acc seen dims; simp
  | cons c cs ih =>
    intro hds rest acc seen dims
    have hc : c.isDigit = true := hds c (List.mem_cons_self c cs)
    rw [List.cons_append, parseDimsAux_cons,
        if_neg (isDigit_ne_rb hc), if_neg (isDigit_ne_comma hc),
        if_neg (isDigit_ne_space hc), if_pos hc,
        ih (fun x hx => hds x (List.mem_cons_of_mem c hx))]
    simp

/-- Parsing the printed dimension list recovers the dimensions. -/
theorem parseDimsAux_dims :
    ∀ (ds : List Nat) (d : Nat) (dims : List Nat),
      parseDimsAux (natDimsChars (d :: ds) ++ [']']) 0 false dims
        = some (dims.reverse ++ d :: ds) := by
  intro ds
  induction ds with
  | nil =>
    intro d dims
    rw [show natDimsChars [d] = natChars d from rfl,
        parseDimsAux_digit_run (natChars d) natChars_digits,
        natChars_val]
    have hne : (natChars d).isEmpty = false := by
      rcases h : natChars d with _ | _
      · exact absurd h (natChars_ne_nil d)
      · rfl
    rw [hne, parseDimsAux_cons]
    simp
  | cons d' ds ih =>
    intro d dims
    rw [show natDimsChars (d :: d' :: ds)
          = natChars d ++ ',' :: ' ' :: natDimsChars (d' :: ds) from rfl,
        List.append_assoc,
        parseDimsAux_digit_run (natChars d) natChars_digits,
        natChars_val]
    have hne : (natChars d).isEmpty = false := by
      rcases h : natChars d with _ | _
      · exact absurd h (natChars_ne_nil d)
      · rfl
    rw [hne, List.cons_append, List.cons_append, parseDimsAux_cons]
    rw [if_neg (show ¬ (',' : Char) = ']' by decide), if_pos rfl,
        if_pos (by simp : ((false || !false) = true))]
    rw [parseDimsAux_cons,
        if_neg (show ¬ (' ' : Char) = ']' by decide),
        if_neg (show ¬ (' ' : Char) = ',' by decide), if_pos rfl]
    rw [ih d' (d :: dims)]
    simp

/-- `parseShape` inverts `shapeString`. -/
theorem parseShape_shapeString (ds : List Nat) :
    parseShape (shapeString ds) = some ds := by
  match ds with
  | [] => rfl
  | d :: ds =>
    have hne : ¬ (natDimsChars (d :: ds) ++ [']']) = [']'] := by
      intro h
      have h0 : natDimsChars (d :: ds) = [] := by
        rcases hnd : natDimsChars (d :: ds) with _ | ⟨x, xs⟩
        · rfl
        · rw [hnd, List.cons_append] at h
          have := congrArg List.length h
          simp at this
      have hd0 : natChars d ≠ [] := natChars_ne_nil d
      rcases ds with _ | ⟨d', ds'⟩
      · exact hd0 h0
      · rw [show natDimsChars (d :: d' :: ds')
            = natChars d ++ ',' :: ' ' :: natDimsChars (d' :: ds') from rfl] at h0
        rcases hnc : natChars d with _ | _
        · exact hd0 hnc
        · rw [hnc, List.cons_append] at h0
          simp at h0
    have hred : parseShape (shapeString (d :: ds))
        = if (natDimsChars (d :: ds) ++ [']']) = [']'] then some []
          else parseDimsAux (natDimsChars (d :: ds) ++ [']']) 0 false [] := rfl
    rw [hred, if_neg hne, parseDimsAux_dims ds d []]
    rfl

/-! ## Shape casting -/

/-- An element of a shape sequence as handed in by a caller: an integer, or
some non-integral value (a string such as `"two"`, ...), tagged with a
description. -/
inductive ShapeElem where
  | int (n : Int)
  | nonInt (desc : String)

/-- Whether a sequence element is integral. -/
def ShapeElem.isInt : ShapeElem → Bool
  | .int _ => true
  | .nonInt _ => false

/-- The integer carried by an element (`0` for non-integral ones; only used
on sequences that are all integral). -/
def ShapeElem.intVal : ShapeElem → Int
  | .int n => n
  | .nonInt _ => 0

/-- The kinds of value a caller can hand to `cast_shape`: absence, a string,
an ordered sequence, or any other kind of value (a mapping, a tuple, an
arbitrary object, ...), the latter modelled by a description tag. -/
inductive ShapeInput where
  | absent
  | str (s : String)
  | seq (l : List ShapeElem)
  | other (desc : String)

/-- Modelled from the spec (§4.2): `cast_shape`.  Absence maps to `"None"`;
an all-integer sequence maps to its literal bracketed comma-space decimal
form; a sequence with a non-integral element fails with `InvalidShape`; a
string passes through unchanged with no structural re-validation; any other
kind of value fails with `TypeMismatch`. -/
def cast_shape : ShapeInput → Except Err String
  | .absent => .ok "None"
  | .str s => .ok s
  | .seq l =>
      if l.all ShapeElem.isInt then .ok (intListString (l.map ShapeElem.intVal))
      else .error .invalidShape
  | .other _ => .error .typeMismatch

/-- C5: every string input, whether or not it is well-formed bracketed shape
text, passes through `cast_shape` unchanged — no structural validation. -/
theorem cast_shape_str_id (s : String) : cast_shape (.str s) = .ok s := rfl

/-- C6: `cast_shape` on absent input yields `"None"`; on every integer
sequence it yields the literal bracketed comma-space decimal form; on a
sequence containing a non-integral element it fails with `InvalidShape`; and
on every other kind of value it fails with `TypeMismatch`. -/
theorem cast_shape_nonstring_contract :
    cast_shape .absent = .ok "None"
      ∧ (∀ l : List Int, cast_shape (.seq (l.map ShapeElem.int))
          = .ok (intListString l))
      ∧ (∀ l : List ShapeElem, l.all ShapeElem.isInt = false →
          cast_shape (.seq l) = .error .invalidShape)
      ∧ (∀ desc, cast_shape (.other desc) = .error .typeMismatch) := by
  refine ⟨rfl, ?_, ?_, fun _ => rfl⟩
  · intro l
    have hall : (l.map ShapeElem.int).all ShapeElem.isInt = true := by
      rw [List.all_eq_true]
      intro x hx
      rcases List.mem_map.mp hx with ⟨n, _, rfl⟩
      rfl
    have hmap : (l.map ShapeElem.int).map ShapeElem.intVal = l := by
      clear hall
      induction l with
      | nil => rfl
      | cons a t ih => simp only [List.map_cons, ih]; rfl
    simp [cast_shape, hall, hmap]
  · intro l hl
    simp [cast_shape, hl]

/-- Witness for C6: concrete sequences from the test suite — `[1, 2, 3]`,
zero, a negative value and `INT_MAX`; a mixed sequence; a mapping. -/
theorem cast_shape_nonstring_contract_witness :
    cast_shape (.seq [.int 1, .int 2, .int 3]) = .ok "[1, 2, 3]"
      ∧ cast_shape (.seq [.int 0]) = .ok "[0]"
      ∧ cast_shape (.seq [.int 100, .int (-100)]) = .ok "[100, -100]"
      ∧ cast_shape (.seq [.int 2147483647]) = .ok "[2147483647]"
      ∧ cast_shape (.seq [.int 1, .nonInt "two", .int 3]) = .error .invalidShape
      ∧ cast_shape (.other "dict") = .error .typeMismatch := by
  refine ⟨?_, ?_, ?_, ?_, ?_, cast_shape_nonstring_contract.2.2.2 "dict"⟩
  · rw [show ([.int 1, .int 2, .int 3] : List ShapeElem)
        = ([1, 2, 3] : List Int).map ShapeElem.int from rfl,
       cast_shape_nonstring_contract.2.1]
    exact congrArg Except.ok (by decide)
  · rw [show ([.int 0] : List ShapeElem) = ([0] : List Int).map ShapeElem.int from rfl,
       cast_shape_nonstring_contract.2.1]
    exact congrArg Except.ok (by decide)
  · rw [show ([.int 100, .int (-100)] : List ShapeElem)
        = ([100, -100] : List Int).map ShapeElem.int from rfl,
       cast_shape_nonstring_contract.2.1]
    exact congrArg Except.ok (by decide)
  · rw [show ([.int 2147483647] : List ShapeElem)
        = ([2147483647] : List Int).map ShapeElem.int from rfl,
       cast_shape_nonstring_contract.2.1]
    exact congrArg Except.ok (by decide)
  · exact cast_shape_nonstring_contract.2.2.1 _ (by decide)

/-! ## Buffer encoding

Modelled from the spec (§4.4): serialize "encodes the raw element bytes into
a transport-safe encoded buffer (a reversible byte-to-text or byte-to-byte
encoding)".  The spec leaves the concrete encoding open, so we model it by a
concrete reversible text encoding: each element is a sign character followed
by a unary magnitude and a terminator.  Text that is not valid encoded
content (such as the literal string `"invalid"`) fails to decode. -/

/-- Encode a flat element list into transport-safe characters. -/
def encodeElems : List Int → List Char
  | [] => []
  | n :: rest =>
      (if n < 0 then '-' else '+')
        :: (List.replicate n.natAbs '1' ++ ';' :: encodeElems rest)

/-- Decoder state machine: `sign` is `none` between elements, otherwise the
sign of the element being read; `m` the magnitude so far; `acc` the decoded
elements (reversed). -/
def decodeAux : List Char → Option Bool → Nat → List Int → Option (List Int)
  | [], none, _, acc => some acc.reverse
  | [], some _, _, _ => none
  | c :: rest, none, _, acc =>
      if c = '+' then decodeAux rest (some false) 0 acc
      else if c = '-' then decodeAux rest (some true) 0 acc
      else none
  | c :: rest, some sg, m, acc =>
      if c = '1' then decodeAux rest (some sg) (m + 1) acc
      else if c = ';' then
        decodeAux rest none 0 ((if sg then -(m : Int) else (m : Int)) :: acc)
      else none

/-- Encode a flat element list as a buffer string. -/
def encodeBuf (l : List Int) : String := ⟨encodeElems l⟩

/-- Decode a buffer string back into a flat element list; `none` models a
decode failure (content not valid per the encoding). -/
def decodeBuf (s : String) : Option (List Int) := decodeAux s.data none 0 []

theorem decodeAux_magnitude :
    ∀ (k : Nat) (rest : List Char) (sg : Bool) (m : Nat) (acc : List Int),
      decodeAux (List.replicate k '1' ++ ';' :: rest) (some sg) m acc
        = decodeAux rest none 0
            ((if sg then -((m + k : Nat) : Int) else ((m + k : Nat) : Int)) :: acc) := by
  intro k
  induction k with
  | zero =>
    intro rest sg m acc
    rw [List.replicate_zero, List.nil_append, decodeAux]
    simp
  | succ k ih =>
    intro rest sg m acc
    rw [List.replicate_succ, List.cons_append, decodeAux, if_pos rfl,
        ih rest sg (m + 1) acc]
    have : m + 1 + k = m + (k + 1) := by omega
    rw [this]

/-- Decoding inverts encoding, for any starting accumulator. -/
theorem decodeAux_encodeElems :
    ∀ (l : List Int) (acc : List Int),
      decodeAux (encodeElems l) none 0 acc = some (acc.reverse ++ l) := by
  intro l
  induction l with
  | nil => intro acc; rw [encodeElems, decodeAux]; simp
  | cons n rest ih =>
    intro acc
    rw [encodeElems]
    by_cases hn : n < 0
    · rw [if_pos hn, decodeAux, if_neg (by decide), if_pos rfl,
          decodeAux_magnitude, ih]
      have hv : -((0 + n.natAbs : Nat) : Int) = n := by omega
      rw [if_pos rfl] at *
      rw [hv, List.reverse_cons, List.append_assoc]
      rfl
    · rw [if_neg hn, decodeAux, if_pos rfl, decodeAux_magnitude, ih]
      have hv : ((0 + n.natAbs : Nat) : Int) = n := by omega
      rw [if_neg (by simp : ¬ false = true)] at *
      rw [hv, List.reverse_cons, List.append_assoc]
      rfl

/-- The buffer codec round-trip. -/
theorem decodeBuf_encodeBuf (l : List Int) : decodeBuf (encodeBuf l) = some l := by
  rw [decodeBuf, encodeBuf]
  have : (⟨encodeElems l⟩ : String).data = encodeElems l := rfl
  rw [this, decodeAux_encodeElems l []]
  rfl

/-! ## Native arrays

Modelled from the spec (§2, §4.4, §4.5): a "supported native array" — a
nested sequence, typed array or framework tensor of any rank, including
rank 0 and zero-length arrays — is a finitely nested structure of numeric
elements. -/

/-- A native multi-dimensional array: a rank-0 scalar or an ordered list of
sub-arrays. -/
inductive NDArr where
  | scalar (x : Int)
  | arr (items : List NDArr)

mutual

/-- The flat element sequence of an array, in row-major order. -/
def flatten : NDArr → List Int
  | .scalar x => [x]
  | .arr items => flattenList items

/-- The concatenated flat elements of a list of arrays. -/
def flattenList : List NDArr → List Int
  | [] => []
  | a :: rest => flatten a ++ flattenList rest

end

/-- The dimensional shape of an array, read along its first spine: a scalar
has shape `[]`, an empty array has shape `[0]`. -/
def shapeOf : NDArr → List Nat
  | .scalar _ => []
  | .arr [] => [0]
  | .arr (x :: xs) => (xs.length + 1) :: shapeOf x

/-- Whether an array is structurally described by a dimension list: a scalar
by `[]`, and an `arr` by `d :: rest` when it has `d` items each described by
`rest`.  This is the rectangularity cross-check of spec §4.3. -/
def matchesShape : List Nat → NDArr → Bool
  | [], .scalar _ => true
  | d :: rest, .arr items =>
      (items.length == d) && items.all (fun c => matchesShape rest c)
  | _, _ => false

/-- An array is rectangular (well-formed for the codec) when it is described
by its own first-spine shape. -/
def isRect (a : NDArr) : Bool := matchesShape (shapeOf a) a

/-- The element count described by a dimension list. -/
def listProd : List Nat → Nat
  | [] => 1
  | d :: rest => d * listProd rest

/-- Split a flat list into `d` consecutive chunks of size `sz`. -/
def chunkExact (sz : Nat) : Nat → List Int → List (List Int)
  | 0, _ => []
  | d + 1, flat => flat.take sz :: chunkExact sz d (flat.drop sz)

/-- Sequence a partial function over a list, failing if any element fails. -/
def mapOpt {α β : Type} (f : α → Option β) : List α → Option (List β)
  | [] => some []
  | x :: xs =>
    match f x, mapOpt f xs with
    | some y, some ys => some (y :: ys)
    | _, _ => none

/-- Rebuild a nested array of the given dimensions from a flat element list;
the inverse of `flatten`, used by the codec's deserialize step (it "reshapes
the flat decoded elements into the declared shape", spec §4.4). -/
def unflatten : List Nat → List Int → Option NDArr
  | [], flat =>
    match flat with
    | [x] => some (.scalar x)
    | _ => none
  | d :: rest, flat =>
    if flat.length = d * listProd rest then
      match mapOpt (fun c => unflatten rest c) (chunkExact (listProd rest) d flat) with
      | some children => some (.arr children)
      | none => none
    else none

theorem matchesShape_cons_arr (d : Nat) (rest : List Nat) (items : List NDArr) :
    matchesShape (d :: rest) (.arr items)
      = ((items.length == d) && items.all (fun c => matchesShape rest c)) := rfl

/-- Shape description inverted: what `matchesShape s a = true` says about `a`. -/
theorem matchesShape_nil_elim {a : NDArr} (h : matchesShape [] a = true) :
    ∃ x, a = NDArr.scalar x := by
  cases a with
  | scalar x => exact ⟨x, rfl⟩
  | arr items => exact absurd h (by simp [matchesShape])

theorem matchesShape_cons_elim {d : Nat} {rest : List Nat} {a : NDArr}
    (h : matchesShape (d :: rest) a = true) :
    ∃ items, a = NDArr.arr items ∧ items.length = d
      ∧ ∀ c ∈ items, matchesShape rest c = true := by
  cases a with
  | scalar x => exact absurd h (by simp [matchesShape])
  | arr items =>
    rw [matchesShape_cons_arr, Bool.and_eq_true, beq_iff_eq, List.all_eq_true] at h
    exact ⟨items, rfl, h.1, h.2⟩

/-- The flat length of each member determines the flat length of a list. -/
theorem flattenList_length (k : Nat) :
    ∀ (items : List NDArr), (∀ c ∈ items, (flatten c).length = k) →
      (flattenList items).length = items.length * k := by
  intro items
  induction items with
  | nil => intro _; simp [flattenList]
  | cons c cs ih =>
    intro h
    rw [flattenList, List.length_append,
        h c (List.mem_cons_self c cs),
        ih (fun x hx => h x (List.mem_cons_of_mem c hx))]
    simp [Nat.succ_mul, Nat.add_comm]

/-- A rectangular array's flat length is the product of its dimensions. -/
theorem flatten_length :
    ∀ (s : List Nat) (a : NDArr), matchesShape s a = true →
      (flatten a).length = listProd s := by
  intro s
  induction s with
  | nil =>
    intro a h
    obtain ⟨x, rfl⟩ := matchesShape_nil_elim h
    simp [flatten, listProd]
  | cons d rest ih =>
    intro a h
    obtain ⟨items, rfl, hlen, hall⟩ := matchesShape_cons_elim h
    rw [show flatten (NDArr.arr items) = flattenList items from rfl,
        flattenList_length (listProd rest) items
          (fun c hc => ih c (hall c hc)),
        hlen, listProd]

/-- Chunking the concatenation of equal-length flats recovers the flats. -/
theorem chunkExact_flattenList (k : Nat) :
    ∀ (items : List NDArr), (∀ c ∈ items, (flatten c).length = k) →
      chunkExact k items.length (flattenList items) = items.map flatten := by
  intro items
  induction items with
  | nil => intro _; rfl
  | cons c cs ih =>
    intro h
    have hc : (flatten c).length = k := h c (List.mem_cons_self c cs)
    rw [show (c :: cs).length = cs.length + 1 from rfl, chunkExact,
        show flattenList (c :: cs) = flatten c ++ flattenList cs from rfl,
        List.take_left' hc, List.drop_left' hc,
        ih (fun x hx => h x (List.mem_cons_of_mem c hx)), List.map_cons]

/-- Sequencing a member-wise inverse over mapped flats succeeds. -/
theorem mapOpt_flatten_inverse (rest : List Nat) :
    ∀ (items : List NDArr),
      (∀ c ∈ items, unflatten rest (flatten c) = some c) →
      mapOpt (fun c => unflatten rest c) (items.map flatten) = some items := by
  intro items
  induction items with
  | nil => intro _; rfl
  | cons c cs ih =>
    intro h
    rw [List.map_cons, mapOpt, h c (List.mem_cons_self c cs),
        ih (fun x hx => h x (List.mem_cons_of_mem c hx))]

theorem unflatten_cons (d : Nat) (rest : List Nat) (flat : List Int) :
    unflatten (d :: rest) flat
      = if flat.length = d * listProd rest then
          (match mapOpt (fun c => unflatten rest c)
              (chunkExact (listProd rest) d flat) with
           | some children => some (.arr children)
           | none => none)
        else none := rfl

/-- Rebuilding from the flat elements recovers any array the shape
describes. -/
theorem unflatten_flatten :
    ∀ (s : List Nat) (a : NDArr), matchesShape s a = true →
      unflatten s (flatten a) = some a := by
  intro s
  induction s with
  | nil =>
    intro a h
    obtain ⟨x, rfl⟩ := matchesShape_nil_elim h
    rfl
  | cons d rest ih =>
    intro a h
    obtain ⟨items, rfl, hlen, hall⟩ := matchesShape_cons_elim h
    have hflat : ∀ c ∈ items, (flatten c).length = listProd rest :=
      fun c hc => flatten_length rest c (hall c hc)
    have hinv : ∀ c ∈ items, unflatten rest (flatten c) = some c :=
      fun c hc => ih c (hall c hc)
    rw [show flatten (NDArr.arr items) = flattenList items from rfl,
        unflatten_cons,
        if_pos (by rw [flattenList_length (listProd rest) items hflat, hlen]),
        ← hlen, chunkExact_flattenList (listProd rest) items hflat,
        mapOpt_flatten_inverse rest items hinv]

/-- `isRect` unfolded: an array matches its own first-spine shape. -/
theorem unflatten_flatten_rect {a : NDArr} (h : isRect a = true) :
    unflatten (shapeOf a) (flatten a) = some a :=
  unflatten_flatten (shapeOf a) a h

/-! ## The Tensor value object -/

/-- Modelled from the spec (§3 Tensor): the value object with one payload
field populated (scalar / vector / matrix / n-dimensional array / encoded
buffer) plus dtype and shape metadata, each an `Option` since unset fields
are absent. -/
structure Tensor where
  scalar : Option Int
  vector : Option (List Int)
  matrix : Option (List (List Int))
  tensor : Option NDArr
  buffer : Option String
  dtype : Option String
  shape : Option String

/-- The payload argument handed to the Tensor constructor: exactly one of
the five payload forms. -/
inductive Payload where
  | scalar (x : Int)
  | vector (v : List Int)
  | matrix (m : List (List Int))
  | ndarray (a : NDArr)
  | buffer (b : String)

/-- Result of measuring a payload's structural extents: a dimension list, a
raggedness violation, or no structural extents to check (an already-encoded
buffer payload carries none). -/
inductive Extents where
  | dims (l : List Nat)
  | ragged
  | unchecked

/-- Modelled from the spec (§4.3 step 2): the actual structural extents of a
payload; a matrix must be rectangular, and an n-dimensional payload must be
rectangular at every level. -/
def payloadExtents : Payload → Extents
  | .scalar _ => .dims [1]
  | .vector v => .dims [v.length]
  | .matrix [] => .dims [0]
  | .matrix (r :: rs) =>
      if rs.all (fun row => row.length == r.length)
      then .dims [rs.length + 1, r.length]
      else .ragged
  | .ndarray a => if isRect a then .dims (shapeOf a) else .ragged
  | .buffer _ => .unchecked

/-- The Tensor record with only the payload field of `p` populated. -/
def payloadFields : Payload → Tensor
  | .scalar x =>
    { scalar := some x, vector := none, matrix := none, tensor := none,
      buffer := none, dtype := none, shape := none }
  | .vector v =>
    { scalar := none, vector := some v, matrix := none, tensor := none,
      buffer := none, dtype := none, shape := none }
  | .matrix m =>
    { scalar := none, vector := none, matrix := some m, tensor := none,
      buffer := none, dtype := none, shape := none }
  | .ndarray a =>
    { scalar := none, vector := none, matrix := none, tensor := some a,
      buffer := none, dtype := none, shape := none }
  | .buffer b =>
    { scalar := none, vector := none, matrix := none, tensor := none,
      buffer := some b, dtype := none, shape := none }

/-- Modelled from the spec (§4.3): Tensor construction.  Step 1 validates
dtype and shape through the cast functions; steps 2–3 compare the payload's
actual structural extents (if it has any) against the declared shape, failing
with `ShapeMismatch` on any mismatch, raggedness included.  Construction
returns `Except`, so every failure is a construction-time failure, never a
deferred one.  A declared shape string that is not canonical bracket text is
trusted unchecked (the spec's §4.2 / §9 pass-through trust boundary). -/
def mkTensor (p : Payload) (d : DTypeInput) (s : ShapeInput) : Except Err Tensor :=
  match cast_dtype d with
  | .error e => .error e
  | .ok ds =>
    match cast_shape s with
    | .error e => .error e
    | .ok ss =>
      match payloadExtents p with
      | .ragged => .error .shapeMismatch
      | .unchecked => .ok { payloadFields p with dtype := ds, shape := some ss }
      | .dims l =>
        match parseShape ss with
        | some pl =>
            if pl = l
            then .ok { payloadFields p with dtype := ds, shape := some ss }
            else .error .shapeMismatch
        | none => .ok { payloadFields p with dtype := ds, shape := some ss }

/-- Modelled from the spec (§4.4): serialize records the array's dtype and
dimensional shape and encodes the flat elements into a transport-safe
buffer, returning a Tensor in buffer form.  The integer-valued model records
the default integer dtype. -/
def Tensor.serialize (a : NDArr) : Tensor :=
  { scalar := none, vector := none, matrix := none, tensor := none,
    buffer := some (encodeBuf (flatten a)),
    dtype := some "torch.int64",
    shape := some (shapeString (shapeOf a)) }

/-- Modelled from the spec (§4.4): deserialize requires buffer form, decodes
the buffer (failing with `DecodeFailure` when the content is not valid
encoded content), and reshapes the flat elements into the declared shape. -/
def Tensor.deserialize (t : Tensor) : Except Err NDArr :=
  match t.buffer with
  | none => .error .typeMismatch
  | some b =>
    match decodeBuf b with
    | none => .error .decodeFailure
    | some flat =>
      match t.shape with
      | none => .error .invalidShape
      | some ss =>
        match parseShape ss with
        | none => .error .invalidShape
        | some dims =>
          match unflatten dims flat with
          | none => .error .shapeMismatch
          | some a => .ok a

/-- The external representations accepted by the factory: nested sequences,
typed (numpy-style) arrays, and framework-native (torch-style) tensors, each
carrying the same underlying array data. -/
inductive FactoryInput where
  | nestedList (a : NDArr)
  | numpyArr (a : NDArr)
  | torchTensor (a : NDArr)

/-- The array data carried by a factory input. -/
def FactoryInput.dataOf : FactoryInput → NDArr
  | .nestedList a => a
  | .numpyArr a => a
  | .torchTensor a => a

/-- Modelled from the spec (§4.5): the factory normalizes every accepted
external representation and delegates to serialize. -/
def TensorFactory.create (i : FactoryInput) : Tensor :=
  Tensor.serialize i.dataOf

/-- Inversion of a successful construction: the stored record is the payload
record with dtype and shape set to the cast results. -/
theorem mkTensor_ok_inv {p : Payload} {d : DTypeInput} {s : ShapeInput}
    {t : Tensor} (h : mkTensor p d s = .ok t) :
    ∃ ds ss, cast_dtype d = .ok ds ∧ cast_shape s = .ok ss
      ∧ t = { payloadFields p with dtype := ds, shape := some ss } := by
  cases hd : cast_dtype d with
  | error e => rw [mkTensor, hd] at h; exact absurd h (by simp)
  | ok ds =>
    cases hs : cast_shape s with
    | error e => rw [mkTensor, hd, hs] at h; exact absurd h (by simp)
    | ok ss =>
      rw [mkTensor, hd, hs] at h
      dsimp only at h
      refine ⟨ds, ss, rfl, rfl, ?_⟩
      cases hpe : payloadExtents p with
      | ragged => rw [hpe] at h; exact absurd h (by simp)
      | unchecked =>
        rw [hpe] at h; dsimp only at h; injection h with h; exact h.symm
      | dims l =>
        rw [hpe] at h
        dsimp only at h
        cases hps : parseShape ss with
        | none => rw [hps] at h; dsimp only at h; injection h with h; exact h.symm
        | some pl =>
          rw [hps] at h
          dsimp only at h
          by_cases hpl : pl = l
          · rw [if_pos hpl] at h; injection h with h; exact h.symm
          · rw [if_neg hpl] at h; exact absurd h (by simp)

/-- C3: every successfully constructed Tensor stores the validated canonical
DType string returned by `cast_dtype` as its dtype attribute and the
validated canonical Shape string returned by `cast_shape` as its shape
attribute — never the raw argument values. -/
theorem mkTensor_stores_canonical (p : Payload) (d : DTypeInput)
    (s : ShapeInput) (t : Tensor) (h : mkTensor p d s = .ok t) :
    (∃ ds, cast_dtype d = .ok ds ∧ t.dtype = ds)
      ∧ (∃ ss, cast_shape s = .ok ss ∧ t.shape = some ss) := by
  obtain ⟨ds, ss, hd, hs, rfl⟩ := mkTensor_ok_inv h
  exact ⟨⟨ds, hd, rfl⟩, ⟨ss, hs, rfl⟩⟩

/-- The constructed Tensor of the C3 witness: shape argument `[2, 2]` is
stored as the canonical string `"[2, 2]"`. -/
def tensorEx : Tensor :=
  { scalar := none, vector := none, matrix := some [[1, 2], [3, 4]],
    tensor := none, buffer := none,
    dtype := some "float32", shape := some "[2, 2]" }

/-- Witness for C3: a 2×2 matrix with declared shape `[2, 2]` stores the
string `"[2, 2]"`, not the raw list. -/
theorem mkTensor_stores_canonical_witness :
    mkTensor (.matrix [[1, 2], [3, 4]]) (.str "float32")
        (.seq [.int 2, .int 2]) = .ok tensorEx
      ∧ (∃ ss, cast_shape (.seq [.int 2, .int 2]) = .ok ss
          ∧ tensorEx.shape = some ss)
      ∧ tensorEx.shape = some "[2, 2]" :=
  ⟨rfl,
   (mkTensor_stores_canonical (.matrix [[1, 2], [3, 4]]) (.str "float32")
      (.seq [.int 2, .int 2]) tensorEx rfl).2,
   rfl⟩

/-- C8: Tensor construction fails at construction time: with `ShapeMismatch`
whenever the payload is ragged or its structural extents differ from the
declared (parseable) shape, and with `InvalidDType` whenever the dtype
string is not a supported spelling. -/
theorem mkTensor_construction_errors :
    (∀ p d s ds ss, cast_dtype d = .ok ds → cast_shape s = .ok ss →
        payloadExtents p = .ragged →
        mkTensor p d s = .error .shapeMismatch)
      ∧ (∀ p d s ds ss l pl, cast_dtype d = .ok ds → cast_shape s = .ok ss →
          payloadExtents p = .dims l → parseShape ss = some pl → pl ≠ l →
          mkTensor p d s = .error .shapeMismatch)
      ∧ (∀ p s str, recognizedDtype str = false →
          mkTensor p (.str str) s = .error .invalidDType) := by
  refine ⟨?_, ?_, ?_⟩
  · intro p d s ds ss hd hs hpe
    rw [mkTensor, hd, hs]
    dsimp only
    rw [hpe]
  · intro p d s ds ss l pl hd hs hpe hps hne
    rw [mkTensor, hd, hs]
    dsimp only
    rw [hpe]
    dsimp only
    rw [hps]
    dsimp only
    rw [if_neg hne]
  · intro p s str h
    rw [mkTensor, show cast_dtype (.str str) = .error .invalidDType by
      simp [cast_dtype, h]]

/-- Witness for C8: the ragged matrix `[[1], [2, 3]]` declared with shape
`[2]` fails with `ShapeMismatch`; an unsupported dtype string fails with
`InvalidDType`; and declared shape `[2]` against a 3-element vector fails
with `ShapeMismatch`. -/
theorem mkTensor_construction_errors_witness :
    mkTensor (.matrix [[1], [2, 3]]) (.str "int32") (.seq [.int 2])
        = .error .shapeMismatch
      ∧ mkTensor (.vector [1, 2, 3]) (.str "unsupported_dtype") (.seq [.int 3])
        = .error .invalidDType
      ∧ mkTensor (.vector [1, 2, 3]) (.str "int32") (.seq [.int 2])
        = .error .shapeMismatch :=
  ⟨mkTensor_construction_errors.1 (.matrix [[1], [2, 3]]) (.str "int32")
     (.seq [.int 2]) (some "int32") "[2]" rfl rfl rfl,
   mkTensor_construction_errors.2.2 (.vector [1, 2, 3]) (.seq [.int 3])
     "unsupported_dtype" (by decide),
   mkTensor_construction_errors.2.1 (.vector [1, 2, 3]) (.str "int32")
     (.seq [.int 2]) (some "int32") "[2]" [3] [2] rfl rfl rfl rfl
     (by decide)⟩

/-- C1: the codec round-trip.  For every rectangular native array — any
rank, zero-length included, whether handed directly to serialize or through
any factory input form (nested list, numpy-style array, torch-style tensor)
— deserializing the serialized Tensor returns the array unchanged, element-
and shape-wise. -/
theorem serialize_deserialize_roundtrip (a : NDArr) (h : isRect a = true) :
    Tensor.deserialize (Tensor.serialize a) = .ok a
      ∧ ∀ i : FactoryInput, i.dataOf = a →
          Tensor.deserialize (TensorFactory.create i) = .ok a := by
  have key : Tensor.deserialize (Tensor.serialize a) = .ok a := by
    simp only [Tensor.serialize, Tensor.deserialize, decodeBuf_encodeBuf,
               parseShape_shapeString, unflatten_flatten_rect h]
  exact ⟨key, fun i hi => by rw [TensorFactory.create, hi]; exact key⟩

/-- The rank-3 example array `[[[1,2],[3,4]],[[5,6],[7,8]]]`. -/
def exRank3 : NDArr :=
  .arr [.arr [.arr [.scalar 1, .scalar 2], .arr [.scalar 3, .scalar 4]],
        .arr [.arr [.scalar 5, .scalar 6], .arr [.scalar 7, .scalar 8]]]

/-- Witness for C1: the rank-3 array round-trips (also through the factory),
and the zero-length array round-trips to a zero-element array. -/
theorem serialize_deserialize_roundtrip_witness :
    (isRect exRank3 = true
      ∧ Tensor.deserialize (Tensor.serialize exRank3) = .ok exRank3
      ∧ Tensor.deserialize (TensorFactory.create (.numpyArr exRank3))
          = .ok exRank3)
      ∧ (isRect (NDArr.arr []) = true
      ∧ Tensor.deserialize (TensorFactory.create (.nestedList (NDArr.arr [])))
          = .ok (NDArr.arr [])
      ∧ (flatten (NDArr.arr [])).length = 0) :=
  ⟨⟨rfl, (serialize_deserialize_roundtrip exRank3 rfl).1,
    (serialize_deserialize_roundtrip exRank3 rfl).2 (.numpyArr exRank3) rfl⟩,
   ⟨rfl,
    (serialize_deserialize_roundtrip (NDArr.arr []) rfl).2
      (.nestedList (NDArr.arr [])) rfl,
    rfl⟩⟩

/-- C9: deserialize on any buffer-form Tensor whose buffer content is not
valid encoded content fails with the precise `DecodeFailure` kind. -/
theorem deserialize_decode_failure (t : Tensor) (b : String)
    (hb : t.buffer = some b) (hd : decodeBuf b = none) :
    Tensor.deserialize t = .error .decodeFailure := by
  rw [Tensor.deserialize, hb]
  dsimp only
  rw [hd]

/-- The broken Tensor of the C9 witness: buffer form holding the non-encoded
string `"invalid"`. -/
def brokenTensor : Tensor :=
  { scalar := none, vector := none, matrix := none, tensor := none,
    buffer := some "invalid", dtype := some "float32", shape := some "[3]" }

/-- Witness for C9: the test-suite Tensor built from `buffer="invalid"`,
`dtype="float32"`, `shape=[3]` constructs fine and deserializes to a
`DecodeFailure`. -/
theorem deserialize_decode_failure_witness :
    mkTensor (.buffer "invalid") (.str "float32") (.seq [.int 3])
        = .ok brokenTensor
      ∧ Tensor.deserialize brokenTensor = .error .decodeFailure :=
  ⟨rfl, deserialize_decode_failure brokenTensor "invalid" rfl (by decide)⟩

/-! ## Config — embedded from src/opentensor/config.py -/

/-- The hyper-parameter namespace handed to `Config.__init__`: the argparse
options declared in `Config.add_args`, every one defaulting to `None` except
`metagraph_size` (default `100000`). -/
structure HParams where
  axon_port : Option String
  metagraph_port : Option String
  metagraph_size : Option Int
  bootstrap : Option String
  identity : Option String
  remote_ip : Option String

/-- A network identity (`opentensor.Identity`), exposing a public key. -/
structure Identity where
  publicKey : String

/-- The ambient effects `_load_defaults` draws on: the two
`random.randint(6000, 60000)` draws, the fresh identity a new
`opentensor.Identity()` yields, and the text of the ipify request. -/
structure Env where
  randAxonPort : Nat
  randMetagraphPort : Nat
  freshIdentity : Identity
  ipifyText : String

/-- The attribute store of a `Config` object after `_load_defaults` ran.
`identity` is `none` exactly when the attribute was never assigned; reading
an unassigned attribute raises `AttributeError`. -/
structure ConfigAttrs where
  axon_port : String
  metagraph_port : String
  metagraph_size : Option Int
  bootstrap : String
  identity : Option Identity
  remote_ip : String

/-- A Python-level error escaping `Config.__init__`. -/
inductive PyErr where
  | attributeError
  deriving DecidableEq, Repr

/-- Embedded from `Config._load_defaults` (config.py): each attribute falls
back to a default when its hparam is `None`; the `identity` branch for a
non-`None` hparam is `pass` — the TODO comment marks loading from a public
key as unimplemented, so no assignment happens at all. -/
def Config.load_defaults (h : HParams) (env : Env) : ConfigAttrs :=
  { axon_port :=
      match h.axon_port with
      | none => ⟨natChars env.randAxonPort⟩
      | some p => p,
    metagraph_port :=
      match h.metagraph_port with
      | none => ⟨natChars env.randMetagraphPort⟩
      | some p => p,
    metagraph_size := h.metagraph_size,
    bootstrap :=
      match h.bootstrap with
      | none => "165.227.216.95:8080"
      | some b => b,
    identity :=
      match h.identity with
      | none => some env.freshIdentity
      | some _ => none,
    remote_ip :=
      match h.remote_ip with
      | none => env.ipifyText
      | some ip => ip }

/-- Embedded from `Config.toString` (config.py): the log call evaluates
`self.identity.public_key()` among its arguments, so an unassigned
`identity` attribute raises `AttributeError`; otherwise the configuration
values are rendered. -/
def Config.toString (c : ConfigAttrs) : Except PyErr String :=
  match c.identity with
  | none => .error .attributeError
  | some i =>
      .ok (i.publicKey ++ " " ++ c.axon_port ++ " " ++ c.metagraph_port
            ++ " "
            ++ (match c.metagraph_size with
                | none => "None"
                | some n => (⟨intChars n⟩ : String))
            ++ " " ++ c.bootstrap ++ " " ++ c.remote_ip)

/-- Embedded from `Config.__init__` (config.py): run `_load_defaults`, then
`toString`; an error raised by `toString` escapes the constructor. -/
def Config.init (h : HParams) (env : Env) : Except PyErr ConfigAttrs :=
  match Config.toString (Config.load_defaults h env) with
  | .error e => .error e
  | .ok _ => .ok (Config.load_defaults h env)

/-- C10: for every hparams whose `identity` field is not `None`,
`Config.__init__` raises `AttributeError` (the non-`None` branch of
`_load_defaults` never assigns `self.identity`, and `toString` then reads
it); a `Config` is only constructible when the supplied identity is absent,
in which case a fresh `opentensor.Identity()` is stored. -/
theorem config_init_requires_absent_identity :
    (∀ (h : HParams) (env : Env), h.identity ≠ none →
        Config.init h env = .error .attributeError)
      ∧ (∀ (h : HParams) (env : Env), h.identity = none →
          Config.init h env = .ok (Config.load_defaults h env)
            ∧ (Config.load_defaults h env).identity = some env.freshIdentity) := by
  constructor
  · intro h env hne
    have hid : (Config.load_defaults h env).identity = none := by
      show (match h.identity with
            | none => some env.freshIdentity
            | some _ => none) = none
      cases hi : h.identity with
      | none => exact absurd hi hne
      | some s => rfl
    have ht : Config.toString (Config.load_defaults h env)
        = .error .attributeError := by
      rw [Config.toString, hid]
    rw [Config.init, ht]
  · intro h env hid
    have hidc : (Config.load_defaults h env).identity = some env.freshIdentity := by
      show (match h.identity with
            | none => some env.freshIdentity
            | some _ => none) = some env.freshIdentity
      rw [hid]
    have ht : ∃ msg, Config.toString (Config.load_defaults h env) = .ok msg := by
      rw [Config.toString, hidc]
      exact ⟨_, rfl⟩
    obtain ⟨msg, ht⟩ := ht
    rw [Config.init, ht]
    exact ⟨rfl, hidc⟩

/-- Hparams with a supplied identity, as a CLI user could pass them. -/
def hpWithIdentity : HParams :=
  { axon_port := some "9000", metagraph_port := some "9001",
    metagraph_size := some 100000, bootstrap := some "10.0.0.1:8080",
    identity := some "somekey", remote_ip := some "5.6.7.8" }

/-- Hparams with every option left at its `None` default except
`metagraph_size`. -/
def hpNoIdentity : HParams :=
  { axon_port := none, metagraph_port := none,
    metagraph_size := some 100000, bootstrap := none,
    identity := none, remote_ip := none }

/-- A concrete environment for the C10 witness. -/
def envEx : Env :=
  { randAxonPort := 7000, randMetagraphPort := 8000,
    freshIdentity := { publicKey := "pubkey" }, ipifyText := "1.2.3.4" }

/-- Witness for C10: with a supplied identity the constructor raises
`AttributeError`; with identity absent it succeeds and stores the fresh
identity. -/
theorem config_init_requires_absent_identity_witness :
    Config.init hpWithIdentity envEx = .error .attributeError
      ∧ Config.init hpNoIdentity envEx
          = .ok (Config.load_defaults hpNoIdentity envEx)
      ∧ (Config.load_defaults hpNoIdentity envEx).identity
          = some envEx.freshIdentity :=
  ⟨config_init_requires_absent_identity.1 hpWithIdentity envEx (by decide),
   (config_init_requires_absent_identity.2 hpNoIdentity envEx rfl).1,
   (config_init_requires_absent_identity.2 hpNoIdentity envEx rfl).2⟩
